import Mathlib

/-!
# Verification of the mini-cfo-copilot normalization / metric pipeline

Shallow embedding of the data-normalization and metric-computation pipeline
of `src/agent/tools.py`.  The embedding works at the "canonical record"
stage of the pipeline (after `_standardize_schema` has resolved the
`account`/`amount`/`currency` columns and `_ensure_period_columns` has
produced the month-start `period` column), except for the period
normalizer itself, which is embedded at raw-column level.

Modelling conventions:
* pandas month-start Timestamps are modelled by `Ym` (year, month);
* float amounts/rates are modelled by `ℚ` (the source arithmetic on these
  values is exact decimal-scale arithmetic in all claims considered);
* a pandas `NaN` cell (unparseable amount, missing rate) is `Option.none`;
* non-finite float results of an unguarded division are modelled by the
  `PFloat` type (`inf` / `ninf` / `nan` constructors);
* a raised Python exception is `Except.error`.
-/

namespace CFO

/-- A calendar month (pandas `Period("M").to_timestamp()`, i.e. a
month-start timestamp).  Months are numbered 1..12 in canonical data. -/
structure Ym where
  year : Int
  month : Nat
deriving DecidableEq, Repr

/-- A full date, as produced by element-wise `pd.to_datetime` before the
`.dt.to_period("M")` truncation. -/
structure Date where
  year : Int
  month : Nat
  day : Nat
deriving DecidableEq, Repr

/-- Month-start truncation `ts.dt.to_period("M").dt.to_timestamp()`:
a `Date` keeps only its year and month. -/
def Date.toYm (d : Date) : Ym := ⟨d.year, d.month⟩

/-- Linear index of a month; pandas Timestamp order on canonical
month-start values coincides with this order. -/
def Ym.idx (p : Ym) : Int := p.year * 12 + (p.month : Int)

instance : BEq Ym := ⟨fun a b => decide (a = b)⟩

instance : LawfulBEq Ym where
  eq_of_beq h := by simpa [BEq.beq] using h
  rfl := by simp [BEq.beq]

/-- Order used to sort periods (`sorted(...)` / `sort_values("period")`). -/
def ymLe (a b : Ym) : Prop := a.idx ≤ b.idx

instance : DecidableRel ymLe := fun a b => inferInstanceAs (Decidable (a.idx ≤ b.idx))

instance : IsTotal Ym ymLe := ⟨fun a b => Int.le_total a.idx b.idx⟩

instance : IsTrans Ym ymLe := ⟨fun _ _ _ h h' => le_trans h h'⟩

instance : IsRefl Ym ymLe := ⟨fun a => le_refl a.idx⟩

/- ------------------------------------------------------------------
Category classifier (`_is_revenue_labels` / `_is_cogs_labels` /
`_is_opex_labels`, src/agent/tools.py lines 229-241).  The label series
is already resolved per row (`_label_series` picks the `account` column,
else `entity`, else an empty series); each predicate below acts on one
row's label string.
------------------------------------------------------------------ -/

/-- Regex word character (`\w` = `[A-Za-z0-9_]` for ASCII). -/
def isWordChar (c : Char) : Bool := c.isAlphanum || c == '_'

/-- Left word boundary: start of string or a non-word char before. -/
def boundaryL : Option Char → Bool
  | none => true
  | some c => !isWordChar c

/-- Right word boundary: end of string or a non-word char after. -/
def boundaryR : List Char → Bool
  | [] => true
  | c :: _ => !isWordChar c

/-- Core scan for `\bw\b`: `prev` is the character just before the
current position (none at the start of the string). -/
def containsWordCore (w : List Char) : Option Char → List Char → Bool
  | prev, [] => boundaryL prev && w.isPrefixOf ([] : List Char) && boundaryR []
  | prev, c :: rest =>
      (boundaryL prev && w.isPrefixOf (c :: rest) && boundaryR ((c :: rest).drop w.length))
        || containsWordCore w (some c) rest

/-- `Series.str.contains(r"\bw\b")` for a literal word `w`. -/
def containsWord (w s : String) : Bool := containsWordCore w.toList none s.toList

/-- Scan for a literal pattern occurring anywhere in the list. -/
def containsSubCore (pat : List Char) : List Char → Bool
  | [] => pat.isPrefixOf ([] : List Char)
  | c :: rest => pat.isPrefixOf (c :: rest) || containsSubCore pat rest

/-- `Series.str.contains(pat)` for a literal (regex-free) pattern. -/
def containsSub (pat s : String) : Bool := containsSubCore pat.toList s.toList

/-- `_is_revenue_labels`: label (lower-cased) equals `"revenue"` or
contains the whole word `"sales"` (tools.py lines 229-231). -/
def isRevenueLabel (label : String) : Bool :=
  let s := label.toLower
  s == "revenue" || containsWord "sales" s

/-- `_is_cogs_labels`: label (lower-cased) equals `"cogs"` or contains
`"cost of goods"` (tools.py lines 234-236). -/
def isCogsLabel (label : String) : Bool :=
  let s := label.toLower
  s == "cogs" || containsSub "cost of goods" s

/-- `_is_opex_labels`: label (lower-cased) starts with `"opex"` or
contains `"operating expense"` (tools.py lines 239-241). -/
def isOpexLabel (label : String) : Bool :=
  let s := label.toLower
  s.startsWith "opex" || containsSub "operating expense" s

/- ------------------------------------------------------------------
Canonical records and the currency converter (`_fx_to_usd`,
src/agent/tools.py lines 177-209).  The embedding is at the canonical
stage: `_standardize_schema` has already resolved the amount column
(`amount`, coerced with `pd.to_numeric(..., errors="coerce")`, so an
unparseable cell is `none`) and the FX rate column (`rate_to_usd` or
`rate`), and `_ensure_period_columns` — idempotent on canonical data —
has produced the month-start `period`.  A whole-table property
(`df["currency"]` being absent) is the table-level flag `hasCurrency`.
------------------------------------------------------------------ -/

/-- One canonical record after schema/period normalization.  `label` is
the row's value of the label series (`_label_series`: the `account`
column, else `entity`, else empty). -/
structure CanRow where
  period : Ym
  label : String
  amount : Option ℚ
  currency : String
deriving DecidableEq, Repr

/-- A canonical table: its rows plus whether a `currency` column exists. -/
structure CanTable where
  hasCurrency : Bool
  rows : List CanRow
deriving DecidableEq, Repr

/-- One FX table row: `period`, `currency` and the resolved rate column
(`rate_to_usd` if present, else `rate`); a `NaN` rate cell is `none`. -/
structure FxRow where
  period : Ym
  currency : String
  rate : Option ℚ
deriving DecidableEq, Repr

/-- The effective currency of a row: `df["currency"] = "USD"` is assigned
to the whole column when the table has no currency column. -/
def effCurrency (t : CanTable) (r : CanRow) : String :=
  if t.hasCurrency then r.currency else "USD"

/-- One output row of `_fx_to_usd`: the merged frame keeps every input
column and adds `rate_to_usd` and `amount_usd`. -/
structure ConvRow where
  period : Ym
  label : String
  amount : Option ℚ
  currency : String
  rate_to_usd : ℚ
  amount_usd : ℚ
deriving DecidableEq, Repr

/-- The rate cells of all FX rows matching `(period, currency)`, in FX
table order (the right side of the left merge). -/
def fxMatches (fx : List FxRow) (p : Ym) (c : String) : List (Option ℚ) :=
  (fx.filter (fun f => f.period == p && f.currency == c)).map (·.rate)

/-- Build one merged row.  `rate?.getD 1` is the
`merged["rate_to_usd"].fillna(1.0)` step (it fills both unmatched rows
and matched rows whose rate cell is NaN); `amount.getD 0` is
`pd.to_numeric(...).fillna(0)`. -/
def convertRow (r : CanRow) (cur : String) (rate? : Option ℚ) : ConvRow :=
  let rate := rate?.getD 1
  { period := r.period, label := r.label, amount := r.amount, currency := cur,
    rate_to_usd := rate, amount_usd := r.amount.getD 0 * rate }

/-- `_fx_to_usd`: left-merge the records with the FX table on
`(period, currency)` (an unmatched left row is kept once with a null
rate), fill missing rates with `1.0`, and compute
`amount_usd = to_numeric(amount).fillna(0) * rate_to_usd`. -/
def fx_to_usd (t : CanTable) (fx : List FxRow) : List ConvRow :=
  t.rows.flatMap (fun r =>
    match fxMatches fx r.period (effCurrency t r) with
    | [] => [convertRow r (effCurrency t r) none]
    | ms => ms.map (fun m => convertRow r (effCurrency t r) m))

/-- Restrict a table to the rows picked by a boolean mask (`df[mask]`). -/
def maskTable (t : CanTable) (f : CanRow → Bool) : CanTable :=
  { hasCurrency := t.hasCurrency, rows := t.rows.filter f }

/-- `frame[frame["period"].eq(p)]["amount_usd"].sum()`. -/
def sumAmountAt (rows : List ConvRow) (p : Ym) : ℚ :=
  ((rows.filter (fun r => r.period == p)).map (·.amount_usd)).sum

/-- `frame["amount_usd"].sum()` over a whole converted frame. -/
def sumAmount (rows : List ConvRow) : ℚ := (rows.map (·.amount_usd)).sum

/- ------------------------------------------------------------------
Month text parsing and formatting.  `revenue_vs_budget` parses its
`month_text` with `dtparser.parse(month_text)` and formats the result
with `period.strftime("%B %Y")`.
------------------------------------------------------------------ -/

/-- English month names, as used by `%B` and by dateutil's parser. -/
def monthNames : List String :=
  ["January", "February", "March", "April", "May", "June",
   "July", "August", "September", "October", "November", "December"]

/-- `strftime("%B")` for month numbers 1..12 (empty otherwise). -/
def monthName (m : Nat) : String := (monthNames.drop (m - 1)).headD ""

/-- Calendar month lookup, case-insensitive, full names and the standard
three-letter abbreviations (dateutil's `parserinfo.MONTHS`). -/
def monthFromName (s : String) : Option Nat :=
  let t := s.toLower
  match (monthNames.enumFrom 1).find? (fun ni =>
      ni.2.toLower == t || (ni.2.toLower.take 3) == t) with
  | some ni => some ni.1
  | none => none

/-- Modelled library behaviour: `dtparser.parse(month_text)` followed by
`.to_period("M").to_timestamp()`, for the `"<MonthName> <Year>"` text
form used by the spec (dateutil fills the missing day from today's date;
the subsequent month truncation discards it).  Other dateutil input
forms are out of the model (`none` = parse failure, a raised exception). -/
def parseMonthText (s : String) : Option Ym :=
  match s.trim.splitOn " " with
  | [m, y] =>
      match monthFromName m, y.toNat? with
      | some mo, some yr => some ⟨(yr : Int), mo⟩
      | _, _ => none
  | _ => none

/-- `period.strftime("%B %Y")`. -/
def formatMonth (p : Ym) : String := monthName p.month ++ " " ++ toString p.year

/-- `series.max()`: maximum period, `none` on an empty series (`NaT`). -/
def maxPeriod (rows : List CanRow) : Option Ym :=
  rows.foldl (fun acc r =>
    match acc with
    | none => some r.period
    | some b => if b.idx ≤ r.period.idx then some r.period else some b) none

/-- A row whose label series value classifies as revenue. -/
def isRevenueRow (r : CanRow) : Bool := isRevenueLabel r.label

/-- A row whose label series value classifies as COGS. -/
def isCogsRow (r : CanRow) : Bool := isCogsLabel r.label

/-- A row whose label series value classifies as opex. -/
def isOpexRow (r : CanRow) : Bool := isOpexLabel r.label

/-- `revenue_vs_budget` (tools.py lines 247-266), parameterized by the
already-loaded canonical tables: resolve the target month (parse
`month_text` when given, else the latest actuals period), convert the
revenue-classified rows of actuals and budget to USD, and sum
`amount_usd` over the target month.  `Except.error` stands for a raised
exception (unparseable month text, or `strftime` on `NaT` when actuals
is empty and no month was given). -/
def revenue_vs_budget (actuals budget : CanTable) (fx : List FxRow)
    (monthText : Option String) : Except String (ℚ × ℚ × String) :=
  let period? := match monthText with
    | some txt => parseMonthText txt
    | none => maxPeriod actuals.rows
  match period? with
  | none => .error "unresolvable month"
  | some period =>
      let aRev := fx_to_usd (maskTable actuals isRevenueRow) fx
      let bRev := fx_to_usd (maskTable budget isRevenueRow) fx
      .ok (sumAmountAt aRev period, sumAmountAt bRev period, formatMonth period)

/- ------------------------------------------------------------------
Metric engine: EBITDA proxy, cash runway, monthly comparison, and the
per-call-site ratio computations (src/agent/tools.py lines 269-768).
------------------------------------------------------------------ -/

/-- `sorted(actuals["period"].unique())`. -/
def distinctPeriodsSorted (rows : List CanRow) : List Ym :=
  ((rows.map (·.period)).dedup).insertionSort ymLe

/-- Revenue (in USD) of one period:
`_fx_to_usd(actuals[rev_mask], fx)` filtered to the period and summed. -/
def revenueAt (actuals : CanTable) (fx : List FxRow) (p : Ym) : ℚ :=
  sumAmountAt (fx_to_usd (maskTable actuals isRevenueRow) fx) p

/-- COGS (in USD) of one period. -/
def cogsAt (actuals : CanTable) (fx : List FxRow) (p : Ym) : ℚ :=
  sumAmountAt (fx_to_usd (maskTable actuals isCogsRow) fx) p

/-- Opex (in USD) of one period. -/
def opexAt (actuals : CanTable) (fx : List FxRow) (p : Ym) : ℚ :=
  sumAmountAt (fx_to_usd (maskTable actuals isOpexRow) fx) p

/-- `ebitda_proxy` (tools.py lines 301-317): for every distinct actuals
period in chronological order, `revenue − COGS − opex` in USD (a period
with no rows of some category sums to 0, the `fillna(0.0)`). -/
def ebitdaSeries (actuals : CanTable) (fx : List FxRow) : List (Ym × ℚ) :=
  (distinctPeriodsSorted actuals.rows).map (fun p =>
    (p, revenueAt actuals fx p - cogsAt actuals fx p - opexAt actuals fx p))

/-- `e.tail(3)`: the last up-to-3 elements. -/
def lastThree (l : List ℚ) : List ℚ := l.drop (l.length - 3)

/-- `last3["net_burn"].mean()`: `none` models the `NaN` mean of an empty
frame (then `np.isfinite` fails and the runway branch treats it like a
non-positive burn). -/
def avgLast3 (l : List ℚ) : Option ℚ :=
  match lastThree l with
  | [] => none
  | t => some (t.sum / (t.length : ℚ))

/-- The runway value: a finite number of months or `float("inf")`. -/
inductive Runway where
  | fin (q : ℚ)
  | inf
deriving DecidableEq, Repr

/-- The runway branch of `cash_runway_months` (tools.py lines 331-334):
infinite when the average burn is non-finite (`none`) or ≤ 0, else
`cash_usd / avg_burn`. -/
def runwayOf (cashUsd : ℚ) (avgBurn : Option ℚ) : Runway :=
  match avgBurn with
  | none => .inf
  | some a => if a ≤ 0 then .inf else .fin (cashUsd / a)

/-- `cash_df.sort_values("period").tail(1)`: the stable sort puts the
rows of maximal period last, in input order, so `tail(1)` is the last
input row holding the maximal period. -/
def latestCashRow (l : List ConvRow) : Option ConvRow :=
  l.foldl (fun acc r =>
    match acc with
    | none => some r
    | some b => if b.period.idx ≤ r.period.idx then some r else some b) none

/-- The per-period net burn series of `cash_runway_months`:
`e["net_burn"] = -e["ebitda_proxy_usd"]`. -/
def netBurns (actuals : CanTable) (fx : List FxRow) : List ℚ :=
  (ebitdaSeries actuals fx).map (fun pe => -pe.2)

/-- `cash_runway_months` (tools.py lines 320-335): average the last 3
periods' net burn, convert the cash table to USD, take the latest cash
row's `amount_usd` (0 when the cash table is empty — the sum over an
empty `tail(1)`), and divide unless the average burn is ≤ 0 or NaN. -/
def cash_runway_months (actuals cash : CanTable) (fx : List FxRow) : ℚ × Runway :=
  let avg := avgLast3 (netBurns actuals fx)
  let cashUsd := match latestCashRow (fx_to_usd cash fx) with
    | none => 0
    | some r => r.amount_usd
  (cashUsd, runwayOf cashUsd avg)

/- ------------------------------------------------------------------
Per-call-site ratio computations (zero-denominator policy).
------------------------------------------------------------------ -/

/-- `variance_pct` in `budget_variance_analysis` (e.g. tools.py line
536): `((a − b) / b * 100) if b != 0 else 0`. -/
def variancePct (a b : ℚ) : ℚ := if b ≠ 0 then (a - b) / b * 100 else 0

/-- Margin % with the `if revenue > 0 ... else 0` guard used in
`monthly_comparison`, `pnl_statement` and `quarterly_summary`. -/
def marginPct (rev sub : ℚ) : ℚ := if rev > 0 then (rev - sub) / rev * 100 else 0

/-- `yoy_growth_pct` in `yearly_comparison` (tools.py lines 434-438):
`((curr − prev) / prev * 100) if prev > 0 else 0`. -/
def yoyGrowthPct (curr prev : ℚ) : ℚ :=
  if prev > 0 then (curr - prev) / prev * 100 else 0

/-- Month-over-month change % in `monthly_comparison` (tools.py lines
383-385): `((curr − prev) / prev * 100) if prev != 0 else 0`. -/
def momChangePct (curr prev : ℚ) : ℚ :=
  if prev ≠ 0 then (curr - prev) / prev * 100 else 0

/-- `gm_pct` in `gross_margin_trend` (tools.py lines 280-281):
`np.where(revenue == 0, nan, (revenue − cogs) / revenue * 100)`;
`none` is the `NaN` (null) branch. -/
def gmTrendPct (rev cogs : ℚ) : Option ℚ :=
  if rev = 0 then none else some ((rev - cogs) / rev * 100)

/-- A pandas float result that may be non-finite. -/
inductive PFloat where
  | fin (q : ℚ)
  | inf
  | ninf
  | nan
deriving DecidableEq, Repr

/-- IEEE-754 division as performed by pandas/numpy on float columns:
`x/0` is `±inf` for `x ≠ 0` and `NaN` for `0/0`. -/
def pdiv (a b : ℚ) : PFloat :=
  if b = 0 then (if a = 0 then .nan else if a > 0 then .inf else .ninf)
  else .fin (a / b)

/-- Multiplication of a pandas float by the positive constant `100`. -/
def pmul100 : PFloat → PFloat
  | .fin q => .fin (q * 100)
  | .inf => .inf
  | .ninf => .ninf
  | .nan => .nan

/-- `mom_growth_pct` in `revenue_growth_analysis` (tools.py lines
674-676): `(curr − prev) / prev * 100` with NO zero guard — pandas
float division.  The same float expression computes `pct_change() * 100`
(`yoy_growth_pct` there, and the `qoq` growths of `quarterly_summary`). -/
def momGrowthPandas (curr prev : ℚ) : PFloat :=
  pmul100 (pdiv (curr - prev) prev)

/- ------------------------------------------------------------------
`monthly_comparison` (tools.py lines 338-388).
------------------------------------------------------------------ -/

/-- One row of the `monthly_comparison` result frame; the four change
columns hold `none` where the frame holds `NaN` (a `df.loc` assignment
to one row leaves the other row's cell `NaN`). -/
structure CompRow where
  period : Ym
  revenue : ℚ
  cogs : ℚ
  opex : ℚ
  gross_margin_pct : ℚ
  ebitda : ℚ
  revenue_change : Option ℚ
  opex_change : Option ℚ
  ebitda_change : Option ℚ
  gm_change : Option ℚ
deriving DecidableEq, Repr

/-- The per-period metrics computed inside `monthly_comparison`'s loop
(change columns not yet assigned). -/
def periodMetrics (actuals : CanTable) (fx : List FxRow) (p : Ym) : CompRow :=
  let rev := revenueAt actuals fx p
  let cogs := cogsAt actuals fx p
  let opex := opexAt actuals fx p
  { period := p, revenue := rev, cogs := cogs, opex := opex,
    gross_margin_pct := marginPct rev cogs,
    ebitda := rev - cogs - opex,
    revenue_change := none, opex_change := none,
    ebitda_change := none, gm_change := none }

/-- `sorted(actuals["period"].unique())[-2:]`. -/
def lastTwo (l : List Ym) : List Ym := l.drop (l.length - 2)

/-- `monthly_comparison`: with fewer than 2 distinct actuals periods the
result is the empty frame (`pd.DataFrame()`, modelled as `[]`); with 2
the frame has one metrics row per period and the month-over-month change
columns are assigned (`df.loc[1, ...]`) on the second (latest) row only. -/
def monthly_comparison (actuals : CanTable) (fx : List FxRow) : List CompRow :=
  match lastTwo (distinctPeriodsSorted actuals.rows) with
  | [p0, p1] =>
      let r0 := periodMetrics actuals fx p0
      let r1 := periodMetrics actuals fx p1
      [r0,
       { r1 with
          revenue_change := some (momChangePct r1.revenue r0.revenue),
          opex_change := some (momChangePct r1.opex r0.opex),
          ebitda_change := some (momChangePct r1.ebitda r0.ebitda),
          gm_change := some (r1.gross_margin_pct - r0.gross_margin_pct) }]
  | _ => []

/- ------------------------------------------------------------------
Period normalizer (`_ensure_period_columns`, tools.py lines 13-89),
embedded at raw-column level.  A table is its ordered list of columns of
cell strings; element-wise `pd.to_datetime` is the parameter `p`
(a failed parse of one cell is `none`), and `dtparser.parse(x).month`
(used by `to_month_number`) is the parameter `pm`.
------------------------------------------------------------------ -/

/-- A raw input table: ordered (column name, cells) pairs. -/
structure RawTable where
  cols : List (String × List String)

/-- Lower-cased column names (`cols = [c.lower() for c in df.columns]`). -/
def lowerNames (t : RawTable) : List String := t.cols.map (fun c => c.1.toLower)

/-- `df[df.columns[cols.index(lc)]]`: the cells of the first column
whose lower-cased name is `lc` (empty when there is none). -/
def colAt (t : RawTable) (lc : String) : List String :=
  match t.cols.find? (fun c => c.1.toLower == lc) with
  | some c => c.2
  | none => []

/-- Count of parsed (non-null) cells. -/
def countSome (l : List (Option Date)) : Nat := (l.filter Option.isSome).length

/-- `try_parse_series` with the 0.6 ratio: parse every cell, accept when
the non-null ratio is ≥ 0.6 (the mean of an empty series is `NaN`, which
fails the comparison), and truncate to month-start. -/
def tryParseSeries (p : String → Option Date) (cells : List String) :
    Option (List (Option Ym)) :=
  let ts := cells.map p
  if ts.length ≠ 0 ∧ 3 * ts.length ≤ 5 * countSome ts then
    some (ts.map (Option.map Date.toYm))
  else none

/-- Keyword list of strategy 2 (common date-ish column names). -/
def dateKeywords : List String :=
  ["date", "month_year", "mnth_yr", "monthyr", "yr_mo", "yyyymm",
   "period_start", "period_end", "time"]

/-- Strategy 2: the first date-keyword-named column whose bulk parse
reaches the 0.6 ratio. -/
def strat2 (p : String → Option Date) (t : RawTable) : Option (List (Option Ym)) :=
  let candidates := (lowerNames t).filter (fun c => dateKeywords.any (fun k => containsSub k c))
  candidates.findSome? (fun dc => tryParseSeries p (colAt t dc))

/-- Python `int(str(x).strip())`. -/
def pyInt (s : String) : Option Int := s.trim.toInt?

/-- `to_month_number`: `int(str(x).strip())`, else
`dtparser.parse(str(x)).month`. -/
def toMonthNumber (pm : String → Option Nat) (s : String) : Option Int :=
  match pyInt s with
  | some v => some v
  | none => (pm s).map (fun n => (n : Int))

/-- Map a list through `f`, failing (a raised exception) when any
element fails. -/
def mapOrFail (f : String → Option Int) (l : List String) : Option (List Int) :=
  l.mapM f

/-- Strategy 3: separate year and month columns
(`pd.to_datetime({"year": ..., "month": ..., "day": 1})`); `none` when
the strategy does not apply, `some (.error ...)` when `astype(int)`,
month parsing or an out-of-range month raises. -/
def strat3 (pm : String → Option Nat) (t : RawTable) :
    Option (Except String (List (Option Ym))) :=
  let lcols := lowerNames t
  let yearNames := (["year", "yr"].filter (fun n => lcols.contains n))
  let monthCols := (["month", "mo", "mnth", "mth"].filter (fun n => lcols.contains n))
  match yearNames, monthCols with
  | ycol :: _, mcol :: _ =>
      some (
        match mapOrFail pyInt (colAt t ycol), mapOrFail (toMonthNumber pm) (colAt t mcol) with
        | some ys, some ms =>
            let pairs := ys.zip ms
            if pairs.all (fun ym => 1 ≤ ym.2 ∧ ym.2 ≤ 12) then
              .ok (pairs.map (fun ym => some ⟨ym.1, ym.2.toNat⟩))
            else .error "month out of range"
        | _, _ => .error "year or month not parseable")
  | _, _ => none

/-- Characters kept by the strategy-4 `str.replace` (digits, hyphen,
slash, underscore, space; every other character is removed). -/
def keepChar (c : Char) : Bool :=
  c.isDigit || c == '-' || c == '/' || c == '_' || c == ' '

/-- One cell of strategy 4: strip foreign characters, then turn a
6-digit `yyyymm` into `yyyy-mm`. -/
def yyyymmCell (s : String) : String :=
  let t := String.mk (s.toList.filter keepChar)
  if t.length == 6 then t.take 4 ++ "-" ++ t.drop 4 else t

/-- Strategy 4: any time-ish-named column, munged through `yyyymmCell`,
accepted at the 0.6 ratio. -/
def strat4 (p : String → Option Date) (t : RawTable) : Option (List (Option Ym)) :=
  t.cols.findSome? (fun c =>
    if ["time", "month", "date", "yyyymm", "yrmo"].any (fun k => containsSub k c.1.toLower) then
      tryParseSeries p (c.2.map yyyymmCell)
    else none)

/-- Strategy 5: brute-force every column; keep the best parse ratio that
is ≥ 0.6 (strictly improving, first column wins ties). -/
def bruteForce (p : String → Option Date) (t : RawTable) : Option (List (Option Ym)) :=
  let best := t.cols.foldl (fun (best : Option (List (Option Date)) × ℚ) c =>
    let ts := c.2.map p
    if ts.length = 0 then best
    else
      let score : ℚ := (countSome ts : ℚ) / (ts.length : ℚ)
      if 3 / 5 ≤ score ∧ best.2 < score then (some ts, score) else best)
    (none, -1)
  best.1.map (fun ts => ts.map (Option.map Date.toYm))

/-- `_ensure_period_columns`, returning the produced `period` column
(`none` cells are `NaT`): fast path on an existing `period`-named column
when ANY cell parses; else strategies 2-5 in order; else a raised
`ValueError`. -/
def ensurePeriod (p : String → Option Date) (pm : String → Option Nat)
    (t : RawTable) : Except String (List (Option Ym)) :=
  let fast : Option (List (Option Ym)) :=
    if (lowerNames t).contains "period" then
      let ts := (colAt t "period").map p
      if ts.any Option.isSome then some (ts.map (Option.map Date.toYm)) else none
    else none
  match fast with
  | some r => .ok r
  | none =>
      match strat2 p t with
      | some r => .ok r
      | none =>
          match strat3 pm t with
          | some r => r
          | none =>
              match strat4 p t with
              | some r => .ok r
              | none =>
                  match bruteForce p t with
                  | some r => .ok r
                  | none => .error "Expected a recognizable time column (date/year+month/period)."

/- ------------------------------------------------------------------
Theorems
------------------------------------------------------------------ -/

/-- Every output row of `fx_to_usd` is a `convertRow` of some input row. -/
lemma mem_fx_to_usd {t : CanTable} {fx : List FxRow} {o : ConvRow}
    (ho : o ∈ fx_to_usd t fx) :
    ∃ r ∈ t.rows, ∃ m : Option ℚ, o = convertRow r (effCurrency t r) m := by
  obtain ⟨r, hr, hm⟩ := List.mem_flatMap.mp ho
  refine ⟨r, hr, ?_⟩
  rcases hms : fxMatches fx r.period (effCurrency t r) with _ | ⟨m, ms⟩ <;>
    rw [hms] at hm
  · exact ⟨none, by simpa using hm⟩
  · obtain ⟨m', _, hm'⟩ := List.mem_map.mp hm
    exact ⟨m', hm'.symm⟩

/-- C2: in every converted table, each row satisfies
`amount_usd = (resolved amount, unparseable ↦ 0) * rate_to_usd` within
absolute tolerance 1e-2 (the embedding's rational arithmetic makes the
identity exact, so the tolerance holds). -/
theorem fx_roundtrip (t : CanTable) (fx : List FxRow) (o : ConvRow)
    (ho : o ∈ fx_to_usd t fx) :
    |o.amount_usd - o.amount.getD 0 * o.rate_to_usd| ≤ 1 / 100 := by
  obtain ⟨r, _, m, rfl⟩ := mem_fx_to_usd ho
  simp [convertRow]

/-- C2 witness: the round-trip property at a concrete EUR row. -/
theorem fx_roundtrip_witness :
    |(ConvRow.mk ⟨2025, 6⟩ "Revenue" (some 1000) "EUR" (11 / 10) 1100).amount_usd
        - (ConvRow.mk ⟨2025, 6⟩ "Revenue" (some 1000) "EUR" (11 / 10) 1100).amount.getD 0
          * (ConvRow.mk ⟨2025, 6⟩ "Revenue" (some 1000) "EUR" (11 / 10) 1100).rate_to_usd|
      ≤ 1 / 100 :=
  fx_roundtrip ⟨true, [⟨⟨2025, 6⟩, "Revenue", some 1000, "EUR"⟩]⟩
    [⟨⟨2025, 6⟩, "EUR", some (11 / 10)⟩] _
    (List.mem_singleton.mpr (by with_unfolding_all rfl))

/-- C3: a record whose `(period, currency)` pair has no FX entry is kept
in the converter's output with `rate_to_usd = 1.0`. -/
theorem fx_missing_rate_fallback (t : CanTable) (fx : List FxRow) (r : CanRow)
    (hr : r ∈ t.rows)
    (hno : ∀ f ∈ fx, ¬(f.period = r.period ∧ f.currency = effCurrency t r)) :
    convertRow r (effCurrency t r) none ∈ fx_to_usd t fx ∧
      (convertRow r (effCurrency t r) none).rate_to_usd = 1 := by
  have hm : fxMatches fx r.period (effCurrency t r) = [] := by
    unfold fxMatches
    rw [List.filter_eq_nil_iff.mpr]
    · rfl
    · intro f hf
      have := hno f hf
      simp only [Bool.and_eq_true, beq_iff_eq]
      tauto
  constructor
  · refine List.mem_flatMap.mpr ⟨r, hr, ?_⟩
    rw [hm]
    simp
  · rfl

/-- C3 witness: concrete row with no matching FX entry. -/
theorem fx_missing_rate_fallback_witness :
    convertRow ⟨⟨2025, 6⟩, "Revenue", some 100000, "USD"⟩ "USD" none
        ∈ fx_to_usd ⟨true, [⟨⟨2025, 6⟩, "Revenue", some 100000, "USD"⟩]⟩
            [⟨⟨2025, 5⟩, "EUR", some (11 / 10)⟩] ∧
      (convertRow ⟨⟨2025, 6⟩, "Revenue", some 100000, "USD"⟩ "USD" none).rate_to_usd = 1 :=
  fx_missing_rate_fallback ⟨true, [⟨⟨2025, 6⟩, "Revenue", some 100000, "USD"⟩]⟩
    [⟨⟨2025, 5⟩, "EUR", some (11 / 10)⟩] ⟨⟨2025, 6⟩, "Revenue", some 100000, "USD"⟩
    (by decide) (by decide)

/-- The `(period, currency)` key of an FX row. -/
def fxKey (f : FxRow) : Ym × String := (f.period, f.currency)

/-- A list whose elements are all equal and that has no duplicates has
at most one element. -/
lemma length_le_one_of_nodup_of_all_eq {α : Type} {l : List α} {k : α}
    (hnd : l.Nodup) (hall : ∀ x ∈ l, x = k) : l.length ≤ 1 := by
  match l with
  | [] => simp
  | [_] => simp
  | a :: b :: rest =>
      exfalso
      have ha : a = k := hall a (by simp)
      have hb : b = k := hall b (by simp)
      exact (List.nodup_cons.mp hnd).1 (by rw [ha, hb]; simp)

/-- With unique FX `(period, currency)` keys, at most one FX row matches
any key. -/
lemma fxMatches_length_le_one (fx : List FxRow) (p : Ym) (c : String)
    (h : (fx.map fxKey).Nodup) : (fxMatches fx p c).length ≤ 1 := by
  unfold fxMatches
  rw [List.length_map]
  set l := fx.filter (fun f => f.period == p && f.currency == c) with hl
  have hsub : l.Sublist fx := List.filter_sublist fx
  have hnd : (l.map fxKey).Nodup := List.Nodup.sublist (List.Sublist.map fxKey hsub) h
  have hall : ∀ x ∈ l.map fxKey, x = (p, c) := by
    intro x hx
    obtain ⟨f, hf, rfl⟩ := List.mem_map.mp hx
    have := List.of_mem_filter hf
    simp only [Bool.and_eq_true, beq_iff_eq] at this
    simp [fxKey, this.1, this.2]
  calc l.length = (l.map fxKey).length := (List.length_map _ _).symm
    _ ≤ 1 := length_le_one_of_nodup_of_all_eq hnd hall

/-- `flatMap` of a pointwise-singleton function is a `map`. -/
lemma flatMap_eq_map_of_singleton {α β : Type} {l : List α} {f : α → List β}
    {g : α → β} (h : ∀ a ∈ l, f a = [g a]) : l.flatMap f = l.map g := by
  induction l with
  | nil => rfl
  | cons a l ih =>
      rw [List.flatMap_cons, h a (by simp), List.map_cons,
        ih (fun x hx => h x (by simp [hx]))]
      rfl

/-- With unique FX keys the converter is row-wise: each input row yields
exactly the merged row built from its (at most one) matching rate. -/
lemma fx_to_usd_eq_map (t : CanTable) (fx : List FxRow)
    (h : (fx.map fxKey).Nodup) :
    fx_to_usd t fx = t.rows.map (fun r =>
      convertRow r (effCurrency t r)
        ((fxMatches fx r.period (effCurrency t r)).headD none)) := by
  unfold fx_to_usd
  refine flatMap_eq_map_of_singleton (fun r _ => ?_)
  have hlen := fxMatches_length_le_one fx r.period (effCurrency t r) h
  rcases hms : fxMatches fx r.period (effCurrency t r) with _ | ⟨m, ms⟩
  · simp
  · rw [hms] at hlen
    have : ms = [] := by
      cases ms with
      | nil => rfl
      | cons _ _ => simp at hlen
    subst this
    simp

/-- C9: with unique FX `(period, currency)` keys the converter returns
exactly one output row per input row, preserving each original field
(`period`, label, `amount`), with the currency defaulted to `"USD"`
when the table has no currency column, plus the added `rate_to_usd` and
`amount_usd` columns. -/
theorem fx_frame_preservation (t : CanTable) (fx : List FxRow)
    (h : (fx.map fxKey).Nodup) :
    (fx_to_usd t fx).length = t.rows.length ∧
      List.Forall₂ (fun (r : CanRow) (o : ConvRow) =>
          o.period = r.period ∧ o.label = r.label ∧ o.amount = r.amount ∧
            o.currency = effCurrency t r)
        t.rows (fx_to_usd t fx) := by
  rw [fx_to_usd_eq_map t fx h]
  constructor
  · exact List.length_map _ _
  · rw [List.forall₂_map_right_iff]
    refine List.forall₂_same.mpr (fun r _ => ?_)
    exact ⟨rfl, rfl, rfl, rfl⟩

/-- C9 witness: a two-row table against a two-entry FX table with
distinct keys. -/
theorem fx_frame_preservation_witness :
    (fx_to_usd ⟨false, [⟨⟨2025, 6⟩, "Revenue", some 1000, ""⟩,
        ⟨⟨2025, 6⟩, "Opex:Mkt", none, ""⟩]⟩
      [⟨⟨2025, 6⟩, "EUR", some 2⟩, ⟨⟨2025, 5⟩, "EUR", some 3⟩]).length = 2 ∧
      List.Forall₂ (fun (r : CanRow) (o : ConvRow) =>
          o.period = r.period ∧ o.label = r.label ∧ o.amount = r.amount ∧
            o.currency = effCurrency ⟨false, [⟨⟨2025, 6⟩, "Revenue", some 1000, ""⟩,
              ⟨⟨2025, 6⟩, "Opex:Mkt", none, ""⟩]⟩ r)
        [⟨⟨2025, 6⟩, "Revenue", some 1000, ""⟩, ⟨⟨2025, 6⟩, "Opex:Mkt", none, ""⟩]
        (fx_to_usd ⟨false, [⟨⟨2025, 6⟩, "Revenue", some 1000, ""⟩,
            ⟨⟨2025, 6⟩, "Opex:Mkt", none, ""⟩]⟩
          [⟨⟨2025, 6⟩, "EUR", some 2⟩, ⟨⟨2025, 5⟩, "EUR", some 3⟩]) :=
  fx_frame_preservation
    ⟨false, [⟨⟨2025, 6⟩, "Revenue", some 1000, ""⟩, ⟨⟨2025, 6⟩, "Opex:Mkt", none, ""⟩]⟩
    [⟨⟨2025, 6⟩, "EUR", some 2⟩, ⟨⟨2025, 5⟩, "EUR", some 3⟩] (by decide)

/-- C5: whenever the average of the last 3 periods' net burn (negated
EBITDA proxy) is defined, `cash_runway_months` returns an infinite
runway if that average is ≤ 0 — for every cash balance — and otherwise
the latest cash balance divided by the average burn. -/
theorem cash_runway_spec (actuals cash : CanTable) (fx : List FxRow) (a : ℚ)
    (h : avgLast3 (netBurns actuals fx) = some a) :
    (cash_runway_months actuals cash fx).2 =
      if a ≤ 0 then Runway.inf
      else Runway.fin ((cash_runway_months actuals cash fx).1 / a) := by
  simp only [cash_runway_months, h, runwayOf]

set_option maxRecDepth 8000 in
/-- C5 witness: one profitable month (EBITDA proxy 100, so average burn
-100) gives an infinite runway despite a positive cash balance. -/
theorem cash_runway_spec_witness :
    (cash_runway_months ⟨true, [⟨⟨2025, 5⟩, "Revenue", some 100, "USD"⟩]⟩
        ⟨true, [⟨⟨2025, 5⟩, "Cash", some 500, "USD"⟩]⟩ []).2 = Runway.inf := by
  have h := cash_runway_spec ⟨true, [⟨⟨2025, 5⟩, "Revenue", some 100, "USD"⟩]⟩
    ⟨true, [⟨⟨2025, 5⟩, "Cash", some 500, "USD"⟩]⟩ [] (-100)
    (by with_unfolding_all rfl)
  simpa using h

/-- Order on runways: any finite runway is below the infinite one. -/
def rle : Runway → Runway → Prop
  | _, .inf => True
  | .inf, .fin _ => False
  | .fin x, .fin y => x ≤ y

/-- C7: runway monotonicity.  (1) For a fixed average burn, a larger
cash balance never yields a smaller runway; (2) for a fixed positive
cash balance, decreasing the average burn never decreases the runway;
(3) the runway is infinite once the average burn is ≤ 0. -/
theorem runway_monotone :
    (∀ a c c' : ℚ, c ≤ c' →
        rle (runwayOf c (some a)) (runwayOf c' (some a))) ∧
      (∀ c b b' : ℚ, 0 < c → b' ≤ b →
        rle (runwayOf c (some b)) (runwayOf c (some b'))) ∧
      (∀ c b : ℚ, b ≤ 0 → runwayOf c (some b) = Runway.inf) := by
  refine ⟨fun a c c' hcc => ?_, fun c b b' hc hbb => ?_, fun c b hb => ?_⟩
  · by_cases ha : a ≤ 0
    · simp [runwayOf, ha, rle]
    · push_neg at ha
      simp only [runwayOf, if_neg (not_le.mpr ha)]
      show c / a ≤ c' / a
      gcongr
  · by_cases hb : b ≤ 0
    · have hb' : b' ≤ 0 := hbb.trans hb
      simp [runwayOf, hb, hb', rle]
    · push_neg at hb
      by_cases hb' : b' ≤ 0
      · simp [runwayOf, hb', if_neg (not_le.mpr hb), rle]
      · push_neg at hb'
        simp only [runwayOf, if_neg (not_le.mpr hb), if_neg (not_le.mpr hb')]
        show c / b ≤ c / b'
        gcongr
  · simp [runwayOf, hb]

/-- C7 witness: the three monotonicity parts at concrete inputs. -/
theorem runway_monotone_witness :
    rle (runwayOf 300 (some 2)) (runwayOf 500 (some 2)) ∧
      rle (runwayOf 500 (some 5)) (runwayOf 500 (some 2)) ∧
      runwayOf 500 (some (-1)) = Runway.inf :=
  ⟨runway_monotone.1 2 300 500 (by norm_num),
    runway_monotone.2.1 500 5 2 (by norm_num) (by norm_num),
    runway_monotone.2.2 500 (-1) (by norm_num)⟩

/-- C4 counterexample: the claim says every metric-engine growth %
yields 0 on a zero denominator, but the month-over-month growth of
`revenue_growth_analysis` (previous-month revenue 0, current 100) is
`+inf`, not 0. -/
theorem zero_denom_policy_cex :
    momGrowthPandas 100 0 = PFloat.inf ∧ momGrowthPandas 100 0 ≠ PFloat.fin 0 := by
  have h : momGrowthPandas 100 0 = PFloat.inf := by
    unfold momGrowthPandas pdiv
    rw [sub_zero, if_pos rfl, if_neg (by norm_num : ¬(100 : ℚ) = 0),
      if_pos (by norm_num : (100 : ℚ) > 0)]
    rfl
  exact ⟨h, by rw [h]; simp⟩

/-- C4 amended: the zero-denominator-yields-0 policy holds in the
explicitly guarded computations — variance % in
`budget_variance_analysis`, margin % (monthly/pnl/quarterly), YoY % in
`yearly_comparison`, the change %s of `monthly_comparison` — and
`gross_margin_trend`'s gm_pct is null on zero revenue; but the
shift/pct_change-based growths of `revenue_growth_analysis` and
`quarterly_summary` are unguarded: on a zero denominator they are
`±inf` or `NaN`, never a finite value. -/
theorem zero_denom_policy_amended :
    (∀ a : ℚ, variancePct a 0 = 0) ∧
      (∀ c : ℚ, marginPct 0 c = 0) ∧
      (∀ c : ℚ, yoyGrowthPct c 0 = 0) ∧
      (∀ v : ℚ, momChangePct v 0 = 0) ∧
      (∀ c : ℚ, gmTrendPct 0 c = none) ∧
      (∀ x : ℚ, momGrowthPandas x 0 = PFloat.inf ∨
        momGrowthPandas x 0 = PFloat.ninf ∨ momGrowthPandas x 0 = PFloat.nan) := by
  refine ⟨fun a => by simp [variancePct], fun c => by simp [marginPct],
    fun c => by simp [yoyGrowthPct], fun v => by simp [momChangePct],
    fun c => by simp [gmTrendPct], fun x => ?_⟩
  unfold momGrowthPandas pdiv
  rw [sub_zero, if_pos rfl]
  rcases lt_trichotomy x 0 with h | h | h
  · rw [if_neg h.ne, if_neg (not_lt.mpr h.le)]
    exact Or.inr (Or.inl rfl)
  · rw [if_pos h]
    exact Or.inr (Or.inr rfl)
  · rw [if_neg h.ne', if_pos h]
    exact Or.inl rfl

/-- The six base text patterns of the category classifier. -/
def patRevenueEq (s : String) : Bool := s.toLower == "revenue"

/-- Whole-word `"sales"` pattern. -/
def patSalesWord (s : String) : Bool := containsWord "sales" s.toLower

/-- Exact `"cogs"` pattern. -/
def patCogsEq (s : String) : Bool := s.toLower == "cogs"

/-- Substring `"cost of goods"` pattern. -/
def patCostOfGoods (s : String) : Bool := containsSub "cost of goods" s.toLower

/-- Leading `"opex"` pattern. -/
def patOpexStart (s : String) : Bool := s.toLower.startsWith "opex"

/-- Substring `"operating expense"` pattern. -/
def patOperatingExpense (s : String) : Bool := containsSub "operating expense" s.toLower

/-- How many of the six base patterns a label matches. -/
def patternCount (s : String) : Nat :=
  [patRevenueEq s, patSalesWord s, patCogsEq s, patCostOfGoods s,
    patOpexStart s, patOperatingExpense s].count true

/-- How many of the three category predicates a label satisfies. -/
def catCount (s : String) : Nat :=
  [isRevenueLabel s, isCogsLabel s, isOpexLabel s].count true

/-- C6 counterexample: `"Opex: Sales Commissions"` classifies as both
revenue (word `"sales"`) and opex (leading `"opex"`), so the three
category predicates are not mutually exclusive. -/
theorem category_exclusivity_cex :
    isRevenueLabel "Opex: Sales Commissions" = true ∧
      isOpexLabel "Opex: Sales Commissions" = true ∧
      ¬ catCount "Opex: Sales Commissions" ≤ 1 := by
  refine ⟨by with_unfolding_all rfl, by with_unfolding_all rfl, ?_⟩
  have h : catCount "Opex: Sales Commissions" = 2 := by with_unfolding_all rfl
  omega

/-- C6 amended: the revenue/COGS/opex predicates are not mutually
exclusive in general (a label matching base patterns of two categories,
such as `"Opex: Sales Commissions"`, matches both); at most one
category predicate holds for every label that matches at most one of
the six base text patterns. -/
theorem category_exclusivity_amended (s : String) (h : patternCount s ≤ 1) :
    catCount s ≤ 1 := by
  have h1 : isRevenueLabel s = (patRevenueEq s || patSalesWord s) := rfl
  have h2 : isCogsLabel s = (patCogsEq s || patCostOfGoods s) := rfl
  have h3 : isOpexLabel s = (patOpexStart s || patOperatingExpense s) := rfl
  unfold catCount
  unfold patternCount at h
  rw [h1, h2, h3]
  revert h
  generalize patRevenueEq s = b1
  generalize patSalesWord s = b2
  generalize patCogsEq s = b3
  generalize patCostOfGoods s = b4
  generalize patOpexStart s = b5
  generalize patOperatingExpense s = b6
  revert b1 b2 b3 b4 b5 b6
  decide

/-- C6 witness: the canonical label `"Revenue"` matches one base
pattern and exactly one category. -/
theorem category_exclusivity_amended_witness :
    patternCount "Revenue" ≤ 1 ∧ catCount "Revenue" ≤ 1 :=
  ⟨by have h : patternCount "Revenue" = 1 := by with_unfolding_all rfl
      omega,
    category_exclusivity_amended "Revenue"
      (by have h : patternCount "Revenue" = 1 := by with_unfolding_all rfl
          omega)⟩

/-- Converting a one-row table whose row has no matching FX entry
yields exactly that row with the fallback rate. -/
lemma fx_to_usd_single (hc : Bool) (r : CanRow) (fx : List FxRow)
    (hm : fxMatches fx r.period (effCurrency ⟨hc, [r]⟩ r) = []) :
    fx_to_usd ⟨hc, [r]⟩ fx = [convertRow r (effCurrency ⟨hc, [r]⟩ r) none] := by
  unfold fx_to_usd
  rw [List.flatMap_cons, List.flatMap_nil, hm]
  rfl

/-- A list filters to empty when no element satisfies the FX-match
predicate for a fixed key. -/
lemma fxMatches_eq_nil_of_no_match (fx : List FxRow) (p : Ym) (c : String)
    (hno : ∀ f ∈ fx, ¬(f.period = p ∧ f.currency = c)) :
    fxMatches fx p c = [] := by
  unfold fxMatches
  rw [List.filter_eq_nil_iff.mpr]
  · rfl
  · intro f hf
    have := hno f hf
    simp only [Bool.and_eq_true, beq_iff_eq]
    tauto

set_option maxRecDepth 40000 in
/-- C1: with actuals holding exactly the row
`(2025-06, "Revenue", 100000, USD)` and budget exactly
`(2025-06, "Revenue", 90000, USD)`, and an FX table matching no
`(period, currency)` pair of these rows, `revenue_vs_budget("June
2025")` returns `(100000.0, 90000.0, "June 2025")`. -/
theorem revenue_vs_budget_june_scenario (fx : List FxRow)
    (hfx : ∀ f ∈ fx, ¬(f.period = (⟨2025, 6⟩ : Ym) ∧ f.currency = "USD")) :
    revenue_vs_budget ⟨true, [⟨⟨2025, 6⟩, "Revenue", some 100000, "USD"⟩]⟩
      ⟨true, [⟨⟨2025, 6⟩, "Revenue", some 90000, "USD"⟩]⟩ fx (some "June 2025")
      = .ok (100000, 90000, "June 2025") := by
  have hm : fxMatches fx ⟨2025, 6⟩ "USD" = [] :=
    fxMatches_eq_nil_of_no_match fx ⟨2025, 6⟩ "USD" hfx
  have hma : maskTable ⟨true, [⟨⟨2025, 6⟩, "Revenue", some 100000, "USD"⟩]⟩ isRevenueRow
      = ⟨true, [⟨⟨2025, 6⟩, "Revenue", some 100000, "USD"⟩]⟩ := by
    with_unfolding_all rfl
  have hmb : maskTable ⟨true, [⟨⟨2025, 6⟩, "Revenue", some 90000, "USD"⟩]⟩ isRevenueRow
      = ⟨true, [⟨⟨2025, 6⟩, "Revenue", some 90000, "USD"⟩]⟩ := by
    with_unfolding_all rfl
  have hfa : fx_to_usd ⟨true, [⟨⟨2025, 6⟩, "Revenue", some 100000, "USD"⟩]⟩ fx
      = [convertRow ⟨⟨2025, 6⟩, "Revenue", some 100000, "USD"⟩ "USD" none] :=
    fx_to_usd_single true ⟨⟨2025, 6⟩, "Revenue", some 100000, "USD"⟩ fx hm
  have hfb : fx_to_usd ⟨true, [⟨⟨2025, 6⟩, "Revenue", some 90000, "USD"⟩]⟩ fx
      = [convertRow ⟨⟨2025, 6⟩, "Revenue", some 90000, "USD"⟩ "USD" none] :=
    fx_to_usd_single true ⟨⟨2025, 6⟩, "Revenue", some 90000, "USD"⟩ fx hm
  have hp : parseMonthText "June 2025" = some ⟨2025, 6⟩ := by with_unfolding_all rfl
  simp only [revenue_vs_budget]
  rw [hp, hma, hmb, hfa, hfb]
  simp only []
  have hs : sumAmountAt [convertRow ⟨⟨2025, 6⟩, "Revenue", some 100000, "USD"⟩ "USD" none]
      (⟨2025, 6⟩ : Ym) = 100000 := by with_unfolding_all rfl
  have hs' : sumAmountAt [convertRow ⟨⟨2025, 6⟩, "Revenue", some 90000, "USD"⟩ "USD" none]
      (⟨2025, 6⟩ : Ym) = 90000 := by with_unfolding_all rfl
  rw [hs, hs']
  have hfmt : formatMonth (⟨2025, 6⟩ : Ym) = "June 2025" := by with_unfolding_all rfl
  rw [hfmt]

/-- C1 witness: the scenario with an empty FX table. -/
theorem revenue_vs_budget_june_scenario_witness :
    revenue_vs_budget ⟨true, [⟨⟨2025, 6⟩, "Revenue", some 100000, "USD"⟩]⟩
      ⟨true, [⟨⟨2025, 6⟩, "Revenue", some 90000, "USD"⟩]⟩ [] (some "June 2025")
      = .ok (100000, 90000, "June 2025") :=
  revenue_vs_budget_june_scenario [] (by simp)

/-- C8: if a table has a `period`-named column (after lower-casing) and
at least one of its values parses as a date, `_ensure_period_columns`
parses the whole column element-wise (unparseable cells become null)
and truncates to month-start — no 60% quality threshold and no other
strategy applies. -/
theorem period_fast_path (p : String → Option Date) (pm : String → Option Nat)
    (t : RawTable)
    (hcol : (lowerNames t).contains "period" = true)
    (hany : ((colAt t "period").map p).any Option.isSome = true) :
    ensurePeriod p pm t = .ok (((colAt t "period").map p).map (Option.map Date.toYm)) := by
  unfold ensurePeriod
  rw [if_pos hcol, if_pos hany]

set_option maxRecDepth 40000 in
/-- C8 witness: a `Period` column where one of two cells parses. -/
theorem period_fast_path_witness :
    ensurePeriod (fun s => if s = "2025-06-01" then some ⟨2025, 6, 1⟩ else none)
        (fun _ => none) ⟨[("Period", ["2025-06-01", "zzz"])]⟩
      = .ok [some ⟨2025, 6⟩, none] := by
  rw [period_fast_path (fun s => if s = "2025-06-01" then some ⟨2025, 6, 1⟩ else none)
    (fun _ => none) ⟨[("Period", ["2025-06-01", "zzz"])]⟩
    (by with_unfolding_all rfl) (by with_unfolding_all rfl)]
  with_unfolding_all rfl

/-- `lastTwo` keeps `min 2 n` elements. -/
lemma lastTwo_length (l : List Ym) : (lastTwo l).length = min 2 l.length := by
  unfold lastTwo
  rw [List.length_drop]
  omega

/-- The distinct-sorted period list is sorted. -/
lemma distinctPeriodsSorted_sorted (rows : List CanRow) :
    List.Sorted ymLe (distinctPeriodsSorted rows) :=
  List.sorted_insertionSort ymLe _

/-- The distinct-sorted period list has no duplicates. -/
lemma distinctPeriodsSorted_nodup (rows : List CanRow) :
    (distinctPeriodsSorted rows).Nodup :=
  (List.perm_insertionSort ymLe _).nodup_iff.mpr (List.nodup_dedup _)

/-- C10: `monthly_comparison` returns the empty frame whenever actuals
has fewer than 2 distinct periods; with 2, the frame has one row per
period in chronological order and the month-over-month change columns
are populated only on the second row, the one for the latest period. -/
theorem monthly_comparison_spec (actuals : CanTable) (fx : List FxRow) :
    ((distinctPeriodsSorted actuals.rows).length < 2 →
        monthly_comparison actuals fx = []) ∧
      (∀ p0 p1 : Ym, lastTwo (distinctPeriodsSorted actuals.rows) = [p0, p1] →
        ∃ r0 r1 : CompRow, monthly_comparison actuals fx = [r0, r1] ∧
          r0.period = p0 ∧ r1.period = p1 ∧ ymLe p0 p1 ∧ p0 ≠ p1 ∧
          r0.revenue_change = none ∧ r0.opex_change = none ∧
          r0.ebitda_change = none ∧ r0.gm_change = none ∧
          r1.revenue_change.isSome = true ∧ r1.opex_change.isSome = true ∧
          r1.ebitda_change.isSome = true ∧ r1.gm_change.isSome = true) := by
  constructor
  · intro hlt
    unfold monthly_comparison
    have hlen : (lastTwo (distinctPeriodsSorted actuals.rows)).length < 2 := by
      rw [lastTwo_length]; omega
    rcases h2 : lastTwo (distinctPeriodsSorted actuals.rows) with _ | ⟨a, _ | ⟨b, rest⟩⟩
    · rfl
    · rfl
    · rw [h2] at hlen
      simp only [List.length_cons] at hlen
      omega
  · intro p0 p1 h2
    have hsub : (lastTwo (distinctPeriodsSorted actuals.rows)).Sublist
        (distinctPeriodsSorted actuals.rows) := List.drop_sublist _ _
    have hpair : List.Pairwise ymLe [p0, p1] := by
      rw [← h2]
      exact (distinctPeriodsSorted_sorted actuals.rows).sublist hsub
    have hnd : ([p0, p1] : List Ym).Nodup := by
      rw [← h2]
      exact (distinctPeriodsSorted_nodup actuals.rows).sublist hsub
    have hle : ymLe p0 p1 := by
      have := List.pairwise_cons.mp hpair
      exact this.1 p1 (by simp)
    have hne : p0 ≠ p1 := by
      have := List.nodup_cons.mp hnd
      intro h
      exact this.1 (by simp [h])
    refine ⟨periodMetrics actuals fx p0,
      { periodMetrics actuals fx p1 with
          revenue_change := some (momChangePct (periodMetrics actuals fx p1).revenue
            (periodMetrics actuals fx p0).revenue),
          opex_change := some (momChangePct (periodMetrics actuals fx p1).opex
            (periodMetrics actuals fx p0).opex),
          ebitda_change := some (momChangePct (periodMetrics actuals fx p1).ebitda
            (periodMetrics actuals fx p0).ebitda),
          gm_change := some ((periodMetrics actuals fx p1).gross_margin_pct
            - (periodMetrics actuals fx p0).gross_margin_pct) },
      ?_, rfl, rfl, hle, hne, rfl, rfl, rfl, rfl, rfl, rfl, rfl, rfl⟩
    unfold monthly_comparison
    rw [h2]

set_option maxRecDepth 40000 in
/-- C10 witness: two distinct periods — change columns populated on the
later row only. -/
theorem monthly_comparison_spec_witness :
    ∃ r0 r1 : CompRow,
      monthly_comparison ⟨true, [⟨⟨2025, 6⟩, "Revenue", some 150, "USD"⟩,
          ⟨⟨2025, 5⟩, "Revenue", some 100, "USD"⟩]⟩ [] = [r0, r1] ∧
        r0.period = ⟨2025, 5⟩ ∧ r1.period = ⟨2025, 6⟩ ∧
        ymLe ⟨2025, 5⟩ ⟨2025, 6⟩ ∧ (⟨2025, 5⟩ : Ym) ≠ ⟨2025, 6⟩ ∧
        r0.revenue_change = none ∧ r0.opex_change = none ∧
        r0.ebitda_change = none ∧ r0.gm_change = none ∧
        r1.revenue_change.isSome = true ∧ r1.opex_change.isSome = true ∧
        r1.ebitda_change.isSome = true ∧ r1.gm_change.isSome = true :=
  (monthly_comparison_spec ⟨true, [⟨⟨2025, 6⟩, "Revenue", some 150, "USD"⟩,
      ⟨⟨2025, 5⟩, "Revenue", some 100, "USD"⟩]⟩ []).2 ⟨2025, 5⟩ ⟨2025, 6⟩
    (by with_unfolding_all rfl)

end CFO
